import Mathlib

/-!
Shallow embedding of `tools/battle_relay_server.py`: a two-peer rendezvous
and relay server.  The room registry is a Python `dict` with insertion
order, modelled as an association list; clients are modelled by a total
map from client identifiers to their mutable fields (`room`, `role`,
`name`, `addr`).  Each server operation becomes a pure function from a
`ServerState` to a `ServerState` paired with the list of messages sent,
in send order.
-/

abbrev ClientId := Nat

inductive Role where
  | host
  | join
deriving DecidableEq, Repr

/-- Mutable fields of the Python `Client` dataclass (the stream handles are
irrelevant to the state machine and omitted). -/
structure ClientState where
  room : Option String
  role : Option Role
  name : String
  addr : String
deriving DecidableEq, Repr

/-- The Python `RoomState` dataclass: occupants are identified by client id
(the source compares occupants by object identity; ids play that part). -/
structure RoomState where
  host : Option ClientId
  join : Option ClientId
deriving DecidableEq, Repr

/-- The global `rooms` dict.  A Python dict iterates in insertion order,
updates a present key in place and appends an absent key; the association
list with `setRoom`/`popRoom` below reproduces exactly that. -/
abbrev Registry := List (String × RoomState)

def getRoom : Registry → String → Option RoomState
  | [], _ => none
  | p :: t, k => if p.1 = k then some p.2 else getRoom t k

/-- `rooms[k] = v`: replace in place when present, append when absent
(a dict never holds a key twice, so replacing the first occurrence is
exact). -/
def setRoom : Registry → String → RoomState → Registry
  | [], k, v => [(k, v)]
  | p :: t, k, v => if p.1 = k then (k, v) :: t else p :: setRoom t k v

/-- `rooms.pop(k, None)`: a dict never holds a key twice, so removing
every occurrence of `k` is exact. -/
def popRoom : Registry → String → Registry
  | [], _ => []
  | p :: t, k => if p.1 = k then popRoom t k else p :: popRoom t k

structure ServerState where
  rooms : Registry
  clients : ClientId → ClientState

/-- Outbound envelopes, with the fields the server actually writes. -/
inductive Msg where
  | joined (room : String) (role : Role) (timestampMs : Nat)
  | ready (peer : String) (timestampMs : Nat)
  | peerLeft (reason : String) (timestampMs : Nat)
  | pong (timestampMs : Nat)
  | msgFwd (type : Option String) (body : Option String) (timestampMs : Nat)
  | errorMsg (message : String)
deriving DecidableEq, Repr

abbrev Sends := List (ClientId × Msg)

def updClient (s : ServerState) (c : ClientId) (cs : ClientState) : ServerState :=
  { s with clients := fun x => if x = c then cs else s.clients x }

/-- The slot-clearing step of `remove_client_locked`: clear the client's
recorded slot when the client really is its occupant, and capture the
other slot's occupant as the peer to notify. -/
def clearSlot (room : RoomState) (role : Role) (c : ClientId) :
    RoomState × Option ClientId :=
  match role with
  | .host =>
      if room.host = some c then ({ room with host := none }, room.join)
      else (room, none)
  | .join =>
      if room.join = some c then ({ room with join := none }, room.host)
      else (room, none)

/-- `remove_client_locked(client, reason)`.  Clears the client's slot if it
really is the recorded occupant, clears the client's `room`/`role` fields,
garbage-collects the room when both slots end up empty, and notifies the
captured peer with `peer_left`. -/
def removeClientLocked (s : ServerState) (c : ClientId) (reason : String)
    (now : Nat) : ServerState × Sends :=
  let cs := s.clients c
  match cs.room, cs.role with
  | some roomName, some role =>
    match getRoom s.rooms roomName with
    | none =>
        (updClient s c { cs with room := none, role := none }, [])
    | some room =>
        let cleared := clearSlot room role c
        let s1 := updClient s c { cs with room := none, role := none }
        let s2 :=
          if cleared.1.host = none ∧ cleared.1.join = none then
            { s1 with rooms := popRoom s1.rooms roomName }
          else
            { s1 with rooms := setRoom s1.rooms roomName cleared.1 }
        match cleared.2 with
        | some p => (s2, [(p, Msg.peerLeft reason now)])
        | none => (s2, [])
  | _, _ => (s, [])

/-- `RoomState.peer_for`, keyed by the client's current role. -/
def peerFor (room : RoomState) (role : Role) : Option ClientId :=
  match role with
  | .host => room.join
  | .join => room.host

/-- The fields `forward_to_peer` reads off the inbound `msg` object. -/
structure FwdPayload where
  type : Option String
  body : Option String
  timestampMs : Option Nat
deriving DecidableEq, Repr

/-- `forward_to_peer(client, obj)`. -/
def forwardToPeer (s : ServerState) (c : ClientId) (p : FwdPayload)
    (now : Nat) : ServerState × Sends :=
  let cs := s.clients c
  match cs.room, cs.role with
  | some roomName, some role =>
    match getRoom s.rooms roomName with
    | none => (s, [(c, Msg.errorMsg "room missing")])
    | some room =>
      match peerFor room role with
      | none => (s, [(c, Msg.errorMsg "peer not connected")])
      | some peer =>
          (s, [(peer, Msg.msgFwd p.type p.body (p.timestampMs.getD now))])
  | _, _ => (s, [(c, Msg.errorMsg "join room first")])

/-- The synthesized auto room key `f"auto-{id(client)}"`; the client id
stands in for the CPython object id. -/
def autoKey (c : ClientId) : String := "auto-" ++ toString c

/-- `str.startswith(pre)`, computed on the character lists (all prefixes
the server tests are ASCII, where the byte and character prefixes agree). -/
def startsWithChars (pre s : String) : Bool := pre.toList.isPrefixOf s.toList

/-- The scan predicate of the auto matchmaking loop:
`rn.startswith("auto-") and r.host is not None and r.join is None`. -/
def autoWaiting (p : String × RoomState) : Bool :=
  startsWithChars "auto-" p.1 && p.2.host.isSome && p.2.join == none

/-- First room satisfying `autoWaiting`, in registry iteration order (the
`for ... break` scan of `join_room`). -/
def findAutoRoom : Registry → Option String
  | [] => none
  | p :: t => if autoWaiting p then some p.1 else findAutoRoom t

/-- Step 1/2 of `join_room`: resolve the requested key to an actual key and
the (possibly extended) registry; `none` is the "no hosts waiting" abort. -/
def resolveRoom (s : ServerState) (c : ClientId) (k : String) (role : Role) :
    Option (String × Registry) :=
  if k = "auto" then
    match role with
    | .host => some (autoKey c, setRoom s.rooms (autoKey c) ⟨none, none⟩)
    | .join =>
      match findAutoRoom s.rooms with
      | none => none
      | some k' => some (k', s.rooms)
  else
    match getRoom s.rooms k with
    | some _ => some (k, s.rooms)
    | none => some (k, setRoom s.rooms k ⟨none, none⟩)

/-- `slot is not None and slot is not client`. -/
def occupiedByOther (slot : Option ClientId) (c : ClientId) : Bool :=
  match slot with
  | some h => h != c
  | none => false

def slotOf (room : RoomState) (role : Role) : Option ClientId :=
  match role with
  | .host => room.host
  | .join => room.join

def occupiedMsg (role : Role) : String :=
  match role with
  | .host => "host slot already occupied"
  | .join => "join slot already occupied"

/-- The tail of `join_room` after the occupancy check: unconditionally run
`remove_client_locked`, set the client's fields, write the slot back.  When
the removal popped the resolved key, the Python code mutates the orphaned
`RoomState` object, which was necessarily `⟨none, none⟩` at the pop and is
no longer referenced from the registry, hence the `Option.getD ⟨none, none⟩`
and the identity branch on an absent key. -/
def attachClient (s : ServerState) (c : ClientId) (k : String) (role : Role)
    (name : String) (now : Nat) : ServerState × Sends :=
  let rem := removeClientLocked s c "switched room" now
  let s2 := rem.1
  let s3 := updClient s2 c
    { s2.clients c with room := some k, role := some role, name := name }
  let roomVal0 := (getRoom s3.rooms k).getD ⟨none, none⟩
  let roomVal :=
    match role with
    | .host => { roomVal0 with host := some c }
    | .join => { roomVal0 with join := some c }
  let s4 :=
    match getRoom s3.rooms k with
    | some _ => { s3 with rooms := setRoom s3.rooms k roomVal }
    | none => s3
  let ready :=
    match roomVal.host, roomVal.join with
    | some h, some j =>
        [(h, Msg.ready (s4.clients j).name now),
         (j, Msg.ready (s4.clients h).name now)]
    | _, _ => []
  (s4, rem.2 ++ (c, Msg.joined k role now) :: ready)

/-- `join_room(client, room_name, role, name)`.  The role is already
validated by the dispatcher, so the "invalid role for auto matchmaking"
branch is unrepresentable. -/
def joinRoom (s : ServerState) (c : ClientId) (k : String) (role : Role)
    (name : String) (now : Nat) : ServerState × Sends :=
  match resolveRoom s c k role with
  | none => (s, [(c, Msg.errorMsg "No hosts currently waiting for a match")])
  | some kr =>
    let s1 : ServerState := { s with rooms := kr.2 }
    let room := (getRoom s1.rooms kr.1).getD ⟨none, none⟩
    if occupiedByOther (slotOf room role) c then
      (s1, [(c, Msg.errorMsg (occupiedMsg role))])
    else
      attachClient s1 c kr.1 role name now

/-- An inbound line after JSON decoding, classified the way `handle_client`
dispatches on `msg.get("op")`: the four recognized operations, and `other`
carrying the textual rendering of any unrecognized `op` value. -/
inductive InMsg where
  | joinMsg (room : Option String) (role : Option String) (name : Option String)
  | ping
  | pong
  | msgOp (p : FwdPayload)
  | other (opName : String)
deriving DecidableEq, Repr

/-- `str(msg.get("room") or "default").strip() or "default"` (the `or`
treats an absent value and the empty string as falsy). -/
def normRoom (v : Option String) : String :=
  let r1 := match v with
    | none => "default"
    | some t => if t = "" then "default" else t
  let r2 := r1.trim
  if r2 = "" then "default" else r2

/-- `str(msg.get("role") or "").strip().lower()` followed by the
membership check against `("host", "join")`. -/
def parseRole (v : Option String) : Option Role :=
  let r := (v.getD "").trim.toLower
  if r = "host" then some Role.host
  else if r = "join" then some Role.join
  else none

/-- `str(msg.get("name") or f"peer-{addr}").strip() or f"peer-{addr}"`. -/
def normName (v : Option String) (addr : String) : String :=
  let d := "peer-" ++ addr
  let r1 := match v with
    | none => d
    | some t => if t = "" then d else t
  let r2 := r1.trim
  if r2 = "" then d else r2

/-- Per-message dispatch of `handle_client` (after decode succeeded). -/
def dispatch (s : ServerState) (c : ClientId) (m : InMsg) (now : Nat) :
    ServerState × Sends :=
  match m with
  | .joinMsg room role name =>
    let roomS := normRoom room
    let nameS := normName name (s.clients c).addr
    match parseRole role with
    | some r => joinRoom s c roomS r nameS now
    | none => (s, [(c, Msg.errorMsg "role must be host or join")])
  | .ping => (s, [(c, Msg.pong now)])
  | .pong => (s, [])
  | .msgOp p => forwardToPeer s c p now
  | .other op => (s, [(c, Msg.errorMsg ("unknown op: " ++ op))])

def MAX_LINE_BYTES : Nat := 128 * 1024

/-- `raw.startswith(b"GET ") or raw.startswith(b"HTTP/")`. -/
def httpish (line : String) : Bool :=
  startsWithChars "GET " line || startsWithChars "HTTP/" line

/-- The data `serve_http` computes from the registry to fill the status
page: lobby count, player count and one entry per room with the occupant
display names (`"..."` for an empty slot) and the battling flag. -/
structure StatusSnapshot where
  totalLobbies : Nat
  totalPlayers : Nat
  entries : List (String × String × String × Bool)
deriving DecidableEq, Repr

def slotName (s : ServerState) (slot : Option ClientId) : String :=
  match slot with
  | some cid => (s.clients cid).name
  | none => "..."

def statusSnapshot (s : ServerState) : StatusSnapshot :=
  { totalLobbies := s.rooms.length
    totalPlayers :=
      (s.rooms.map (fun p =>
        (if p.2.host.isSome then 1 else 0) +
        (if p.2.join.isSome then 1 else 0))).sum
    entries := s.rooms.map (fun p =>
      (p.1, slotName s p.2.host, slotName s p.2.join,
       p.2.host.isSome && p.2.join.isSome)) }

/-- What one connection's loop emits: protocol messages to clients, or the
one-shot HTTP status page. -/
inductive Output where
  | toClient (cid : ClientId) (m : Msg)
  | httpPage (snapshot : StatusSnapshot)
deriving DecidableEq, Repr

def Output.isHttpPage : Output → Bool
  | .httpPage _ => true
  | _ => false

/-- The read loop of `handle_client` over the raw lines of one connection.
`decode` abstracts JSON parsing (`none` covers both a parse failure and a
non-mapping payload, each of which sends an error and continues).  The
HTTP branch is checked on the first line only and before the size check,
as in the source; an oversized line sends an error and breaks the loop. -/
def clientLoop (decode : String → Option InMsg) (s : ServerState)
    (c : ClientId) (isFirst : Bool) (lines : List String) (now : Nat) :
    ServerState × List Output :=
  match lines with
  | [] => (s, [])
  | l :: rest =>
    if isFirst && httpish l then
      (s, [Output.httpPage (statusSnapshot s)])
    else if MAX_LINE_BYTES < l.utf8ByteSize then
      (s, [Output.toClient c (Msg.errorMsg "line too large")])
    else
      match decode l with
      | none =>
        let next := clientLoop decode s c false rest now
        (next.1, Output.toClient c (Msg.errorMsg "invalid json") :: next.2)
      | some m =>
        let step := dispatch s c m now
        let next := clientLoop decode step.1 c false rest now
        (next.1, step.2.map (fun p => Output.toClient p.1 p.2) ++ next.2)

/-- States reachable from an empty registry with every connection detached,
under complete operations: a join, a departure, a forward, or the dispatch
of any decoded message. -/
inductive Reachable : ServerState → Prop where
  | init (f : ClientId → ClientState)
      (h : ∀ c, (f c).room = none ∧ (f c).role = none) :
      Reachable ⟨[], f⟩
  | join {s : ServerState} (hs : Reachable s) (c : ClientId) (k : String)
      (role : Role) (name : String) (now : Nat) :
      Reachable (joinRoom s c k role name now).1
  | remove {s : ServerState} (hs : Reachable s) (c : ClientId)
      (reason : String) (now : Nat) :
      Reachable (removeClientLocked s c reason now).1
  | forward {s : ServerState} (hs : Reachable s) (c : ClientId)
      (p : FwdPayload) (now : Nat) :
      Reachable (forwardToPeer s c p now).1
  | dispatchStep {s : ServerState} (hs : Reachable s) (c : ClientId)
      (m : InMsg) (now : Nat) :
      Reachable (dispatch s c m now).1


/-! ### Registry lemmas -/

theorem getRoom_setRoom_self (rs : Registry) (k : String) (v : RoomState) :
    getRoom (setRoom rs k v) k = some v := by
  induction rs with
  | nil => simp [setRoom, getRoom]
  | cons a t ih =>
    by_cases h : a.1 = k
    · simp [setRoom, getRoom, h]
    · simp [setRoom, getRoom, h, ih]

theorem getRoom_setRoom_ne (rs : Registry) (k k' : String) (v : RoomState)
    (h : k' ≠ k) : getRoom (setRoom rs k v) k' = getRoom rs k' := by
  have h1 : ¬ (k = k') := fun e => h e.symm
  induction rs with
  | nil => simp [setRoom, getRoom, h1]
  | cons a t ih =>
    by_cases ha : a.1 = k
    · have h2 : ¬ (a.1 = k') := by rw [ha]; exact h1
      simp [setRoom, getRoom, ha, h1, h2]
    · by_cases ha' : a.1 = k'
      · simp [setRoom, getRoom, ha, ha', h, h1]
      · simp [setRoom, getRoom, ha, ha', ih]

theorem getRoom_popRoom_self (rs : Registry) (k : String) :
    getRoom (popRoom rs k) k = none := by
  induction rs with
  | nil => simp [popRoom, getRoom]
  | cons a t ih =>
    by_cases h : a.1 = k
    · simp [popRoom, h, ih]
    · simp [popRoom, getRoom, h, ih]

theorem getRoom_popRoom_ne (rs : Registry) (k k' : String) (h : k' ≠ k) :
    getRoom (popRoom rs k) k' = getRoom rs k' := by
  have h1 : ¬ (k = k') := fun e => h e.symm
  induction rs with
  | nil => simp [popRoom]
  | cons a t ih =>
    by_cases ha : a.1 = k
    · have h2 : ¬ (a.1 = k') := by rw [ha]; exact h1
      simp [popRoom, getRoom, ha, h2, h1, ih]
    · by_cases ha' : a.1 = k'
      · simp [popRoom, getRoom, ha, ha', h, h1]
      · simp [popRoom, getRoom, ha, ha', ih]

theorem getRoom_setRoom (rs : Registry) (k k' : String) (v : RoomState) :
    getRoom (setRoom rs k v) k' = if k' = k then some v else getRoom rs k' := by
  by_cases h : k' = k
  · subst h; simp [getRoom_setRoom_self]
  · simp [h, getRoom_setRoom_ne rs k k' v h]

theorem getRoom_popRoom (rs : Registry) (k k' : String) :
    getRoom (popRoom rs k) k' = if k' = k then none else getRoom rs k' := by
  by_cases h : k' = k
  · subst h; simp [getRoom_popRoom_self]
  · simp [h, getRoom_popRoom_ne rs k k' h]

/-! ### Client-map lemmas -/

theorem updClient_clients_self (s : ServerState) (c : ClientId)
    (cs : ClientState) : (updClient s c cs).clients c = cs := by
  simp [updClient]

theorem updClient_clients_ne (s : ServerState) (c : ClientId)
    (cs : ClientState) (x : ClientId) (h : x ≠ c) :
    (updClient s c cs).clients x = s.clients x := by
  simp [updClient, h]

theorem updClient_rooms (s : ServerState) (c : ClientId) (cs : ClientState) :
    (updClient s c cs).rooms = s.rooms := rfl

/-! ### Departure lemmas -/

/-- Step 1 of §4.5: a detached connection makes the departure a no-op. -/
theorem removeClientLocked_noop (s : ServerState) (c : ClientId)
    (reason : String) (now : Nat)
    (h : (s.clients c).room = none ∨ (s.clients c).role = none) :
    removeClientLocked s c reason now = (s, []) := by
  rcases hr : (s.clients c).room with _ | rn
  · simp [removeClientLocked, hr]
  · rcases ho : (s.clients c).role with _ | ro
    · simp [removeClientLocked, hr, ho]
    · rcases h with h | h
      · rw [hr] at h; exact absurd h (by simp)
      · rw [ho] at h; exact absurd h (by simp)

theorem removeClientLocked_clients_ne (s : ServerState) (c : ClientId)
    (reason : String) (now : Nat) (x : ClientId) (hx : x ≠ c) :
    (removeClientLocked s c reason now).1.clients x = s.clients x := by
  unfold removeClientLocked
  dsimp only
  split
  · split
    · simp [updClient, hx]
    · repeat' split
      all_goals simp [updClient, hx]
  · rfl

theorem removeClientLocked_clients_self (s : ServerState) (c : ClientId)
    (reason : String) (now : Nat) :
    (removeClientLocked s c reason now).1.clients c = s.clients c ∨
    (removeClientLocked s c reason now).1.clients c =
      { s.clients c with room := none, role := none } := by
  unfold removeClientLocked
  dsimp only
  split
  · split
    · right; simp [updClient]
    · repeat' split
      all_goals right; simp [updClient]
  · left; rfl

/-- Closed form of the registry after a departure that found the room. -/
theorem removeClientLocked_rooms_formula (s : ServerState) (c : ClientId)
    (reason : String) (now : Nat) (rn : String) (ro : Role) (room : RoomState)
    (hr : (s.clients c).room = some rn) (ho : (s.clients c).role = some ro)
    (hg : getRoom s.rooms rn = some room) :
    (removeClientLocked s c reason now).1.rooms =
      (if (clearSlot room ro c).1.host = none ∧ (clearSlot room ro c).1.join = none
       then popRoom s.rooms rn
       else setRoom s.rooms rn (clearSlot room ro c).1) := by
  simp only [removeClientLocked, hr, ho, hg]
  split <;> split <;> rfl

/-- The registry after a departure whose room lookup failed is unchanged. -/
theorem removeClientLocked_rooms_missing (s : ServerState) (c : ClientId)
    (reason : String) (now : Nat) (rn : String) (ro : Role)
    (hr : (s.clients c).room = some rn) (ho : (s.clients c).role = some ro)
    (hg : getRoom s.rooms rn = none) :
    (removeClientLocked s c reason now).1.rooms = s.rooms := by
  simp only [removeClientLocked, hr, ho, hg]
  rfl

/-- The clients map after a departure that found room and role: the
client's `room`/`role` are cleared, everyone else untouched. -/
theorem removeClientLocked_clients_formula (s : ServerState) (c : ClientId)
    (reason : String) (now : Nat) (rn : String) (ro : Role)
    (hr : (s.clients c).room = some rn) (ho : (s.clients c).role = some ro) :
    (removeClientLocked s c reason now).1.clients =
      fun x => if x = c then { s.clients c with room := none, role := none }
               else s.clients x := by
  rcases hg : getRoom s.rooms rn with _ | room
  · simp only [removeClientLocked, hr, ho, hg]
    rfl
  · simp only [removeClientLocked, hr, ho, hg]
    split <;> split <;> rfl

theorem removeClientLocked_rooms_shape (s : ServerState) (c : ClientId)
    (reason : String) (now : Nat) :
    (removeClientLocked s c reason now).1.rooms = s.rooms ∨
    (∃ k, (removeClientLocked s c reason now).1.rooms = popRoom s.rooms k) ∨
    (∃ k v, ¬(v.host = none ∧ v.join = none) ∧
      (removeClientLocked s c reason now).1.rooms = setRoom s.rooms k v) := by
  rcases hr : (s.clients c).room with _ | rn
  · left; rw [removeClientLocked_noop s c reason now (Or.inl hr)]
  · rcases ho : (s.clients c).role with _ | ro
    · left; rw [removeClientLocked_noop s c reason now (Or.inr ho)]
    · rcases hg : getRoom s.rooms rn with _ | room
      · left; exact removeClientLocked_rooms_missing s c reason now rn ro hr ho hg
      · rw [removeClientLocked_rooms_formula s c reason now rn ro room hr ho hg]
        by_cases hb : (clearSlot room ro c).1.host = none ∧
            (clearSlot room ro c).1.join = none
        · exact Or.inr (Or.inl ⟨rn, by rw [if_pos hb]⟩)
        · exact Or.inr (Or.inr ⟨rn, (clearSlot room ro c).1, hb, by rw [if_neg hb]⟩)

/-- A room whose slots do not reference the departing client keeps its
registry binding (and value) across the departure. -/
theorem removeClientLocked_getRoom_stable (s : ServerState) (c : ClientId)
    (reason : String) (now : Nat) (k : String) (v : RoomState)
    (hv : getRoom s.rooms k = some v)
    (hh : v.host ≠ some c) (hj : v.join ≠ some c)
    (hne : ¬(v.host = none ∧ v.join = none)) :
    getRoom (removeClientLocked s c reason now).1.rooms k = some v := by
  rcases hr : (s.clients c).room with _ | rn
  · rw [removeClientLocked_noop s c reason now (Or.inl hr)]; exact hv
  rcases ho : (s.clients c).role with _ | ro
  · rw [removeClientLocked_noop s c reason now (Or.inr ho)]; exact hv
  rcases hg : getRoom s.rooms rn with _ | room
  · rw [removeClientLocked_rooms_missing s c reason now rn ro hr ho hg]; exact hv
  rw [removeClientLocked_rooms_formula s c reason now rn ro room hr ho hg]
  by_cases hk : rn = k
  · subst hk
    rw [hv] at hg
    injection hg with he
    subst he
    have hcs : clearSlot v ro c = (v, none) := by
      cases ro <;> simp [clearSlot, hh, hj]
    rw [hcs]
    dsimp only
    rw [if_neg hne]
    exact getRoom_setRoom_self _ _ _
  · split
    · rw [getRoom_popRoom_ne _ _ _ (fun e => hk e.symm)]; exact hv
    · rw [getRoom_setRoom_ne _ _ _ _ (fun e => hk e.symm)]; exact hv

/-- What a departure that found room and role sends: `peer_left` to the
captured peer, if any. -/
theorem removeClientLocked_sends_formula (s : ServerState) (c : ClientId)
    (reason : String) (now : Nat) (rn : String) (ro : Role) (room : RoomState)
    (hr : (s.clients c).room = some rn) (ho : (s.clients c).role = some ro)
    (hg : getRoom s.rooms rn = some room) :
    (removeClientLocked s c reason now).2 =
      (match (clearSlot room ro c).2 with
       | some p => [(p, Msg.peerLeft reason now)]
       | none => ([] : Sends)) := by
  rcases hp : (clearSlot room ro c).2 with _ | p <;>
    simp only [removeClientLocked, hr, ho, hg, hp]

/-- After any departure the client is detached, so §4.5 is reentrant. -/
theorem removeClientLocked_twice (s : ServerState) (c : ClientId)
    (r1 : String) (n1 : Nat) (r2 : String) (n2 : Nat) :
    removeClientLocked (removeClientLocked s c r1 n1).1 c r2 n2 =
      ((removeClientLocked s c r1 n1).1, []) := by
  apply removeClientLocked_noop
  rcases hr : (s.clients c).room with _ | rn
  · left; rw [removeClientLocked_noop s c r1 n1 (Or.inl hr)]; exact hr
  rcases ho : (s.clients c).role with _ | ro
  · right; rw [removeClientLocked_noop s c r1 n1 (Or.inr ho)]; exact ho
  left
  rw [removeClientLocked_clients_formula s c r1 n1 rn ro hr ho]
  simp

theorem updClient_rooms_eq (s : ServerState) (c : ClientId) (cs : ClientState) :
    (updClient s c cs).rooms = s.rooms := rfl

/-- Closed form of the attach step when the resolved key survived the
departure. -/
theorem attachClient_formula (s : ServerState) (c : ClientId) (k : String)
    (role : Role) (name : String) (now : Nat) (v' : RoomState)
    (hv : getRoom (removeClientLocked s c "switched room" now).1.rooms k = some v') :
    attachClient s c k role name now =
      (let rem := removeClientLocked s c "switched room" now
       let s3 := updClient rem.1 c
         { rem.1.clients c with room := some k, role := some role, name := name }
       let roomVal :=
         match role with
         | .host => { v' with host := some c }
         | .join => { v' with join := some c }
       let s4 : ServerState := { s3 with rooms := setRoom s3.rooms k roomVal }
       (s4, rem.2 ++ (c, Msg.joined k role now) ::
         (match roomVal.host, roomVal.join with
          | some h, some j =>
              [(h, Msg.ready (s4.clients j).name now),
               (j, Msg.ready (s4.clients h).name now)]
          | _, _ => []))) := by
  simp only [attachClient, updClient_rooms_eq, hv, Option.getD_some]

/-! ### Identical re-join (claim C1) -/

theorem rejoin_host_case (s : ServerState) (k : String) (a b : ClientId)
    (nmA : String) (now : Nat)
    (hk : k ≠ "auto")
    (hg : getRoom s.rooms k = some ⟨some a, some b⟩)
    (hab : a ≠ b)
    (hra : (s.clients a).room = some k) (hoa : (s.clients a).role = some .host) :
    getRoom (joinRoom s a k .host nmA now).1.rooms k = some ⟨some a, some b⟩ ∧
    (joinRoom s a k .host nmA now).1.clients a =
      { s.clients a with room := some k, role := some .host, name := nmA } ∧
    (joinRoom s a k .host nmA now).2 =
      [(b, Msg.peerLeft "switched room" now), (a, Msg.joined k .host now),
       (a, Msg.ready (s.clients b).name now), (b, Msg.ready nmA now)] := by
  have hres : resolveRoom s a k Role.host = some (k, s.rooms) := by
    simp [resolveRoom, hk, hg]
  have hjoin : joinRoom s a k Role.host nmA now = attachClient s a k Role.host nmA now := by
    simp [joinRoom, hres, hg, slotOf, occupiedByOther]
  have hcs : clearSlot ⟨some a, some b⟩ Role.host a = (⟨none, some b⟩, some b) := by
    simp [clearSlot]
  have hrooms : (removeClientLocked s a "switched room" now).1.rooms =
      setRoom s.rooms k ⟨none, some b⟩ := by
    rw [removeClientLocked_rooms_formula s a "switched room" now k Role.host
      ⟨some a, some b⟩ hra hoa hg, hcs]
    simp
  have hv : getRoom (removeClientLocked s a "switched room" now).1.rooms k =
      some ⟨none, some b⟩ := by
    rw [hrooms]; exact getRoom_setRoom_self _ _ _
  have hsends : (removeClientLocked s a "switched room" now).2 =
      [(b, Msg.peerLeft "switched room" now)] := by
    rw [removeClientLocked_sends_formula s a "switched room" now k Role.host
      ⟨some a, some b⟩ hra hoa hg, hcs]
  have hclients : (removeClientLocked s a "switched room" now).1.clients =
      fun x => if x = a then { s.clients a with room := none, role := none }
               else s.clients x :=
    removeClientLocked_clients_formula s a "switched room" now k Role.host hra hoa
  rw [hjoin, attachClient_formula s a k Role.host nmA now ⟨none, some b⟩ hv]
  refine ⟨?_, ?_, ?_⟩
  · dsimp only
    rw [updClient_rooms_eq, getRoom_setRoom_self]
  · dsimp only
    rw [updClient_clients_self, hclients]
    simp
  · dsimp only
    rw [hsends, updClient_clients_self, updClient_clients_ne _ _ _ b hab.symm, hclients]
    simp [hab.symm]

theorem rejoin_join_case (s : ServerState) (k : String) (a b : ClientId)
    (nmB : String) (now : Nat)
    (hk : k ≠ "auto")
    (hg : getRoom s.rooms k = some ⟨some a, some b⟩)
    (hab : a ≠ b)
    (hrb : (s.clients b).room = some k) (hob : (s.clients b).role = some .join) :
    getRoom (joinRoom s b k .join nmB now).1.rooms k = some ⟨some a, some b⟩ ∧
    (joinRoom s b k .join nmB now).1.clients b =
      { s.clients b with room := some k, role := some .join, name := nmB } ∧
    (joinRoom s b k .join nmB now).2 =
      [(a, Msg.peerLeft "switched room" now), (b, Msg.joined k .join now),
       (a, Msg.ready nmB now), (b, Msg.ready (s.clients a).name now)] := by
  have hres : resolveRoom s b k Role.join = some (k, s.rooms) := by
    simp [resolveRoom, hk, hg]
  have hjoin : joinRoom s b k Role.join nmB now = attachClient s b k Role.join nmB now := by
    simp [joinRoom, hres, hg, slotOf, occupiedByOther]
  have hcs : clearSlot ⟨some a, some b⟩ Role.join b = (⟨some a, none⟩, some a) := by
    simp [clearSlot]
  have hrooms : (removeClientLocked s b "switched room" now).1.rooms =
      setRoom s.rooms k ⟨some a, none⟩ := by
    rw [removeClientLocked_rooms_formula s b "switched room" now k Role.join
      ⟨some a, some b⟩ hrb hob hg, hcs]
    simp
  have hv : getRoom (removeClientLocked s b "switched room" now).1.rooms k =
      some ⟨some a, none⟩ := by
    rw [hrooms]; exact getRoom_setRoom_self _ _ _
  have hsends : (removeClientLocked s b "switched room" now).2 =
      [(a, Msg.peerLeft "switched room" now)] := by
    rw [removeClientLocked_sends_formula s b "switched room" now k Role.join
      ⟨some a, some b⟩ hrb hob hg, hcs]
  have hclients : (removeClientLocked s b "switched room" now).1.clients =
      fun x => if x = b then { s.clients b with room := none, role := none }
               else s.clients x :=
    removeClientLocked_clients_formula s b "switched room" now k Role.join hrb hob
  rw [hjoin, attachClient_formula s b k Role.join nmB now ⟨some a, none⟩ hv]
  refine ⟨?_, ?_, ?_⟩
  · dsimp only
    rw [updClient_rooms_eq, getRoom_setRoom_self]
  · dsimp only
    rw [updClient_clients_self, hclients]
    simp
  · dsimp only
    rw [hsends, updClient_clients_self, updClient_clients_ne _ _ _ a hab, hclients]
    simp [hab]

/-- A paired room `"r"` with host `0` ("Alice") and joiner `1` ("Bob"). -/
def pairClients : ClientId → ClientState := fun n =>
  if n = 0 then ⟨some "r", some Role.host, "Alice", "a0"⟩
  else if n = 1 then ⟨some "r", some Role.join, "Bob", "a1"⟩
  else ⟨none, none, "peer", "a"⟩

def pairState : ServerState := ⟨[("r", ⟨some 0, some 1⟩)], pairClients⟩

/-- Claim C1, counterexample: in the paired room `"r"` (host `0`, joiner
`1`), host `0` re-sends its identical `join` (same key `"r"`, same role
`host`); contrary to the claim, the peer `1` IS sent a `peer_left`
notification (reason `"switched room"`), because `join_room` runs the
departure procedure unconditionally before re-attaching. -/
theorem c1_identical_rejoin_counterexample :
    (1, Msg.peerLeft "switched room" 5) ∈ (joinRoom pairState 0 "r" .host "Alice" 5).2 := by
  decide

/-- Claim C1 (amended): for a non-`"auto"` key, a connection re-sending an
identical `join` for the slot it already occupies gets a `joined` reply and
still occupies the same slot of the same room afterwards, but the peer in
the other slot first receives `peer_left` (reason `"switched room"`) and
then a fresh `ready` pair is sent to both occupants. -/
theorem c1_identical_rejoin_amended (s : ServerState) (k : String)
    (a b : ClientId) (nmA nmB : String) (now : Nat)
    (hk : k ≠ "auto")
    (hg : getRoom s.rooms k = some ⟨some a, some b⟩)
    (hab : a ≠ b)
    (hra : (s.clients a).room = some k) (hoa : (s.clients a).role = some .host)
    (hrb : (s.clients b).room = some k) (hob : (s.clients b).role = some .join) :
    (getRoom (joinRoom s a k .host nmA now).1.rooms k = some ⟨some a, some b⟩ ∧
     (joinRoom s a k .host nmA now).1.clients a =
       { s.clients a with room := some k, role := some .host, name := nmA } ∧
     (joinRoom s a k .host nmA now).2 =
       [(b, Msg.peerLeft "switched room" now), (a, Msg.joined k .host now),
        (a, Msg.ready (s.clients b).name now), (b, Msg.ready nmA now)]) ∧
    (getRoom (joinRoom s b k .join nmB now).1.rooms k = some ⟨some a, some b⟩ ∧
     (joinRoom s b k .join nmB now).1.clients b =
       { s.clients b with room := some k, role := some .join, name := nmB } ∧
     (joinRoom s b k .join nmB now).2 =
       [(a, Msg.peerLeft "switched room" now), (b, Msg.joined k .join now),
        (a, Msg.ready nmB now), (b, Msg.ready (s.clients a).name now)]) :=
  ⟨rejoin_host_case s k a b nmA now hk hg hab hra hoa,
   rejoin_join_case s k a b nmB now hk hg hab hrb hob⟩

/-- Witness for the amended claim C1 at the concrete paired room. -/
theorem c1_identical_rejoin_witness :
    (getRoom (joinRoom pairState 0 "r" .host "Alice" 5).1.rooms "r" =
       some ⟨some 0, some 1⟩ ∧
     (joinRoom pairState 0 "r" .host "Alice" 5).1.clients 0 =
       { pairState.clients 0 with room := some "r", role := some .host, name := "Alice" } ∧
     (joinRoom pairState 0 "r" .host "Alice" 5).2 =
       [(1, Msg.peerLeft "switched room" 5), (0, Msg.joined "r" .host 5),
        (0, Msg.ready (pairState.clients 1).name 5), (1, Msg.ready "Alice" 5)]) ∧
    (getRoom (joinRoom pairState 1 "r" .join "Bob" 5).1.rooms "r" =
       some ⟨some 0, some 1⟩ ∧
     (joinRoom pairState 1 "r" .join "Bob" 5).1.clients 1 =
       { pairState.clients 1 with room := some "r", role := some .join, name := "Bob" } ∧
     (joinRoom pairState 1 "r" .join "Bob" 5).2 =
       [(0, Msg.peerLeft "switched room" 5), (1, Msg.joined "r" .join 5),
        (0, Msg.ready "Bob" 5), (1, Msg.ready (pairState.clients 0).name 5)]) :=
  c1_identical_rejoin_amended pairState "r" 0 1 "Alice" "Bob" 5
    (by decide) (by decide) (by decide) (by decide) (by decide)
    (by decide) (by decide)

/-! ### Occupied-slot check (claim C2) -/

/-- A registry whose key `"auto-0"` (the key `join_room` synthesizes for
client `0` in auto-host mode) is a named room hosted by client `1`. -/
def collideClients : ClientId → ClientState := fun n =>
  if n = 1 then ⟨some "auto-0", some Role.host, "Eve", "a1"⟩
  else ⟨none, none, "peer", "a"⟩

def collideState : ServerState := ⟨[("auto-0", ⟨some 1, none⟩)], collideClients⟩

/-- Claim C2, counterexample: client `0` requests `join` with room `"auto"`
and role `host` while the synthesized target key `"auto-0"` already has its
host slot occupied by the different connection `1`.  Contrary to the claim,
the server replies `joined` (no error) and mutates state: the room under
`"auto-0"` is replaced by a fresh room hosted by `0`, evicting occupant
`1`. -/
theorem c2_slot_occupied_counterexample :
    getRoom collideState.rooms (autoKey 0) = some ⟨some 1, none⟩ ∧
    (1 : ClientId) ≠ 0 ∧
    (joinRoom collideState 0 "auto" .host "Mallory" 3).2 =
      [(0, Msg.joined (autoKey 0) .host 3)] ∧
    getRoom (joinRoom collideState 0 "auto" .host "Mallory" 3).1.rooms (autoKey 0) =
      some ⟨some 0, none⟩ := by
  decide

/-- Claim C2 (amended): for every named-mode `join` request (room key other
than `"auto"`) whose target slot is already occupied by a different
connection, the server replies `error` ("host/join slot already occupied")
and the operation mutates no state at all; in auto mode the occupancy check
never fails, and an auto-host request whose synthesized key collides with
an existing room silently replaces that room instead. -/
theorem c2_slot_occupied_amended (s : ServerState) (c : ClientId) (k : String)
    (role : Role) (name : String) (now : Nat) (room : RoomState) (d : ClientId)
    (hk : k ≠ "auto")
    (hg : getRoom s.rooms k = some room)
    (hocc : slotOf room role = some d) (hd : d ≠ c) :
    joinRoom s c k role name now = (s, [(c, Msg.errorMsg (occupiedMsg role))]) := by
  have hres : resolveRoom s c k role = some (k, s.rooms) := by
    cases role <;> simp [resolveRoom, hk, hg]
  simp [joinRoom, hres, hg, hocc, occupiedByOther, hd]

/-- Witness for the amended claim C2: a third client asking for the host
slot of the fully paired room `"r"` is rejected and nothing changes. -/
theorem c2_slot_occupied_witness :
    joinRoom pairState 2 "r" .host "Eve" 7 =
      (pairState, [(2, Msg.errorMsg (occupiedMsg .host))]) :=
  c2_slot_occupied_amended pairState 2 "r" .host "Eve" 7 ⟨some 0, some 1⟩ 0
    (by decide) (by decide) (by decide) (by decide)

/-! ### Auto matchmaking (claim C3) -/

/-- The scan returns the first waiting auto room in iteration order. -/
theorem findAutoRoom_first (pre : Registry) (k : String) (room : RoomState)
    (post : Registry)
    (hpre : ∀ p ∈ pre, autoWaiting p = false)
    (hk : autoWaiting (k, room) = true) :
    findAutoRoom (pre ++ (k, room) :: post) = some k := by
  induction pre with
  | nil => simp [findAutoRoom, hk]
  | cons a t ih =>
    have ha := hpre a (by simp)
    simp only [List.cons_append, findAutoRoom, ha]
    exact ih fun p hp => hpre p (by simp [hp])

theorem findAutoRoom_none (rs : Registry)
    (h : ∀ p ∈ rs, autoWaiting p = false) : findAutoRoom rs = none := by
  induction rs with
  | nil => rfl
  | cons a t ih =>
    have ha := h a (by simp)
    simp only [findAutoRoom, ha]
    exact ih fun p hp => h p (by simp [hp])

theorem getRoom_append_first (pre : Registry) (k : String) (room : RoomState)
    (post : Registry) (hpre : ∀ p ∈ pre, p.1 ≠ k) :
    getRoom (pre ++ (k, room) :: post) k = some room := by
  induction pre with
  | nil => simp [getRoom]
  | cons a t ih =>
    have ha := hpre a (by simp)
    simp only [List.cons_append, getRoom, ha, if_false]
    exact ih fun p hp => hpre p (by simp [hp])

/-- A departure never changes the departing client's `name` or `addr`. -/
theorem removeClientLocked_clients_keeps (s : ServerState) (c : ClientId)
    (reason : String) (now : Nat) :
    ((removeClientLocked s c reason now).1.clients c).name = (s.clients c).name ∧
    ((removeClientLocked s c reason now).1.clients c).addr = (s.clients c).addr := by
  rcases removeClientLocked_clients_self s c reason now with h | h <;>
    rw [h] <;> exact ⟨rfl, rfl⟩

theorem autoJoin_success_case (s : ServerState) (c h : ClientId)
    (name : String) (now : Nat) (pre : Registry) (k : String) (post : Registry)
    (hs : s.rooms = pre ++ (k, ⟨some h, none⟩) :: post)
    (hpre1 : ∀ p ∈ pre, autoWaiting p = false)
    (hpre2 : ∀ p ∈ pre, p.1 ≠ k)
    (hks : startsWithChars "auto-" k = true)
    (hhc : h ≠ c) :
    getRoom (joinRoom s c "auto" .join name now).1.rooms k = some ⟨some h, some c⟩ ∧
    (joinRoom s c "auto" .join name now).1.clients c =
      { s.clients c with room := some k, role := some .join, name := name } ∧
    ∃ pre', (joinRoom s c "auto" .join name now).2 =
      pre' ++ [(c, Msg.joined k .join now),
               (h, Msg.ready name now), (c, Msg.ready (s.clients h).name now)] := by
  have hfind : findAutoRoom s.rooms = some k := by
    rw [hs]
    exact findAutoRoom_first pre k ⟨some h, none⟩ post hpre1 (by simp [autoWaiting, hks])
  have hg : getRoom s.rooms k = some ⟨some h, none⟩ := by
    rw [hs]
    exact getRoom_append_first pre k ⟨some h, none⟩ post hpre2
  have hres : resolveRoom s c "auto" Role.join = some (k, s.rooms) := by
    simp [resolveRoom, hfind]
  have hjoin : joinRoom s c "auto" Role.join name now =
      attachClient s c k Role.join name now := by
    simp [joinRoom, hres, hg, slotOf, occupiedByOther]
  have hv : getRoom (removeClientLocked s c "switched room" now).1.rooms k =
      some ⟨some h, none⟩ :=
    removeClientLocked_getRoom_stable s c "switched room" now k ⟨some h, none⟩ hg
      (by simp [hhc]) (by simp) (by simp)
  have hkeep := removeClientLocked_clients_keeps s c "switched room" now
  rw [hjoin, attachClient_formula s c k Role.join name now ⟨some h, none⟩ hv]
  refine ⟨?_, ?_, ?_⟩
  · dsimp only
    rw [updClient_rooms_eq, getRoom_setRoom_self]
  · dsimp only
    rw [updClient_clients_self]
    simp [hkeep.2]
  · dsimp only
    refine ⟨(removeClientLocked s c "switched room" now).2, ?_⟩
    rw [updClient_clients_self,
      updClient_clients_ne _ _ _ h hhc,
      removeClientLocked_clients_ne s c "switched room" now h hhc]

theorem autoJoin_no_host_case (s : ServerState) (c : ClientId)
    (name : String) (now : Nat)
    (hnone : ∀ p ∈ s.rooms, autoWaiting p = false) :
    joinRoom s c "auto" .join name now =
      (s, [(c, Msg.errorMsg "No hosts currently waiting for a match")]) := by
  simp [joinRoom, resolveRoom, findAutoRoom_none s.rooms hnone]

/-- A lone auto host `7` waiting in its own synthesized room `"auto-7"`. -/
def selfHostClients : ClientId → ClientState := fun n =>
  if n = 7 then ⟨some "auto-7", some Role.host, "Hope", "a7"⟩
  else ⟨none, none, "peer", "a"⟩

def selfHostState : ServerState := ⟨[("auto-7", ⟨some 7, none⟩)], selfHostClients⟩

/-- Claim C3, counterexample: room `"auto-7"` is a waiting auto room (host
occupied, join empty), so an auto-join request must attach to it; but when
the requester is that room's own host (`7`), the departure step empties the
room and pops it, so after the `joined` reply the registry is empty — the
connection's fields claim the room's join slot while no room references it,
i.e. it is not attached to the selected room. -/
theorem c3_auto_join_counterexample :
    autoWaiting ("auto-7", ⟨some 7, none⟩) = true ∧
    selfHostState.rooms = [("auto-7", ⟨some 7, none⟩)] ∧
    (joinRoom selfHostState 7 "auto" .join "Hope" 4).2 =
      [(7, Msg.joined "auto-7" .join 4)] ∧
    (joinRoom selfHostState 7 "auto" .join "Hope" 4).1.rooms = [] ∧
    (joinRoom selfHostState 7 "auto" .join "Hope" 4).1.clients 7 =
      ⟨some "auto-7", some .join, "Hope", "a7"⟩ := by
  decide

/-- Claim C3 (amended): an `"auto"`/`join` request attaches to the first
registry room (in iteration order) whose key starts with `"auto-"`, whose
host slot is occupied and whose join slot is empty — provided the requester
is not itself that room's host (then the room is instead removed from the
registry while the requester's fields still claim it).  On success the room
holds host and joiner, the joiner's fields point at the room, and the
`joined` reply is followed by the `ready` pair.  If no such room exists the
server replies `error` ("No hosts currently waiting for a match") and the
state — including the requester's prior room and role — is exactly
unchanged. -/
theorem c3_auto_join_amended (s : ServerState) (c : ClientId)
    (name : String) (now : Nat) :
    (∀ (pre : Registry) (k : String) (h : ClientId) (post : Registry),
      s.rooms = pre ++ (k, ⟨some h, none⟩) :: post →
      (∀ p ∈ pre, autoWaiting p = false) →
      (∀ p ∈ pre, p.1 ≠ k) →
      startsWithChars "auto-" k = true →
      h ≠ c →
      getRoom (joinRoom s c "auto" .join name now).1.rooms k =
        some ⟨some h, some c⟩ ∧
      (joinRoom s c "auto" .join name now).1.clients c =
        { s.clients c with room := some k, role := some .join, name := name } ∧
      ∃ pre', (joinRoom s c "auto" .join name now).2 =
        pre' ++ [(c, Msg.joined k .join now),
                 (h, Msg.ready name now), (c, Msg.ready (s.clients h).name now)]) ∧
    ((∀ p ∈ s.rooms, autoWaiting p = false) →
      joinRoom s c "auto" .join name now =
        (s, [(c, Msg.errorMsg "No hosts currently waiting for a match")])) :=
  ⟨fun pre k h post hs h1 h2 h3 h4 =>
      autoJoin_success_case s c h name now pre k post hs h1 h2 h3 h4,
   fun hn => autoJoin_no_host_case s c name now hn⟩

/-- A waiting auto host `9` in room `"auto-9"`, for the C3 witness. -/
def waitingClients : ClientId → ClientState := fun n =>
  if n = 9 then ⟨some "auto-9", some Role.host, "Host9", "a9"⟩
  else ⟨none, none, "peer", "a"⟩

def waitingState : ServerState := ⟨[("auto-9", ⟨some 9, none⟩)], waitingClients⟩

/-- Witness for the amended claim C3: client `2` auto-joins the waiting
room `"auto-9"`, and auto-joining against the paired-only registry fails
without mutation. -/
theorem c3_auto_join_witness :
    (getRoom (joinRoom waitingState 2 "auto" .join "Bob" 6).1.rooms "auto-9" =
       some ⟨some 9, some 2⟩ ∧
     (joinRoom waitingState 2 "auto" .join "Bob" 6).1.clients 2 =
       { waitingState.clients 2 with room := some "auto-9", role := some .join, name := "Bob" } ∧
     ∃ pre', (joinRoom waitingState 2 "auto" .join "Bob" 6).2 =
       pre' ++ [(2, Msg.joined "auto-9" .join 6), (9, Msg.ready "Bob" 6),
                (2, Msg.ready (waitingState.clients 9).name 6)]) ∧
    joinRoom pairState 2 "auto" .join "Bob" 6 =
      (pairState, [(2, Msg.errorMsg "No hosts currently waiting for a match")]) :=
  ⟨(c3_auto_join_amended waitingState 2 "Bob" 6).1 [] "auto-9" 9 []
      (by decide) (by decide) (by decide) (by decide) (by decide),
   (c3_auto_join_amended pairState 2 "Bob" 6).2 (by decide)⟩

/-! ### Forwarding (claim C5) -/

/-- Claim C5: a `msg` from a connection in a room is forwarded as exactly
one envelope to the paired occupant only, with `type` and `body` identical
to the inbound fields and timestamp the inbound one if present, otherwise
the current server time; with no paired occupant the server replies
`error` ("peer not connected") and the state is unchanged either way. -/
theorem c5_forward_fidelity (s : ServerState) (c : ClientId) (k : String)
    (role : Role) (room : RoomState) (p : FwdPayload) (now : Nat)
    (hr : (s.clients c).room = some k) (ho : (s.clients c).role = some role)
    (hg : getRoom s.rooms k = some room) :
    (∀ peer, peerFor room role = some peer →
      forwardToPeer s c p now =
        (s, [(peer, Msg.msgFwd p.type p.body (p.timestampMs.getD now))])) ∧
    (peerFor room role = none →
      forwardToPeer s c p now = (s, [(c, Msg.errorMsg "peer not connected")])) := by
  constructor
  · intro peer hpeer
    simp [forwardToPeer, hr, ho, hg, hpeer]
  · intro hpeer
    simp [forwardToPeer, hr, ho, hg, hpeer]

/-- Witness for claim C5: host `0` of the paired room forwards a
`pin_edge` payload to joiner `1` verbatim; the waiting host `9` with no
joiner gets "peer not connected" and an unchanged state. -/
theorem c5_forward_fidelity_witness :
    forwardToPeer pairState 0 ⟨some "pin_edge", some "P2,15,1,1234", some 777⟩ 9 =
      (pairState, [(1, Msg.msgFwd (some "pin_edge") (some "P2,15,1,1234") 777)]) ∧
    forwardToPeer waitingState 9 ⟨some "pin_edge", none, none⟩ 4 =
      (waitingState, [(9, Msg.errorMsg "peer not connected")]) :=
  ⟨(c5_forward_fidelity pairState 0 "r" .host ⟨some 0, some 1⟩
      ⟨some "pin_edge", some "P2,15,1,1234", some 777⟩ 9
      (by decide) (by decide) (by decide)).1 1 (by decide),
   (c5_forward_fidelity waitingState 9 "auto-9" .host ⟨some 9, none⟩
      ⟨some "pin_edge", none, none⟩ 4
      (by decide) (by decide) (by decide)).2 (by decide)⟩

/-! ### Reentrant departure (claim C7) -/

/-- Claim C7: the departure procedure is reentrant-safe — for a connection
with `currentRoom` and `currentRole` unset it is a no-op (state and sends),
and running it twice in a row always equals running it once. -/
theorem c7_departure_reentrant (s : ServerState) (c : ClientId)
    (r1 r2 : String) (n1 n2 : Nat) :
    ((s.clients c).room = none → (s.clients c).role = none →
      removeClientLocked s c r1 n1 = (s, [])) ∧
    removeClientLocked (removeClientLocked s c r1 n1).1 c r2 n2 =
      ((removeClientLocked s c r1 n1).1, []) :=
  ⟨fun h1 _ => removeClientLocked_noop s c r1 n1 (Or.inl h1),
   removeClientLocked_twice s c r1 n1 r2 n2⟩

/-- Witness for claim C7 at a detached connection of the paired room. -/
theorem c7_departure_reentrant_witness :
    removeClientLocked pairState 2 "peer disconnected" 1 = (pairState, []) ∧
    removeClientLocked (removeClientLocked pairState 0 "peer disconnected" 1).1
        0 "peer disconnected" 2 =
      ((removeClientLocked pairState 0 "peer disconnected" 1).1, []) :=
  ⟨(c7_departure_reentrant pairState 2 "peer disconnected" "x" 1 0).1
      (by decide) (by decide),
   (c7_departure_reentrant pairState 0 "peer disconnected" "peer disconnected" 1 2).2⟩

/-! ### Unknown operations (claim C8) -/

/-- Claim C8: an inbound message whose `op` is none of `join`, `ping`,
`pong`, `msg` draws an `error` reply naming the unrecognized operation, the
state is untouched, and the connection stays open — the loop continues with
the remaining lines exactly as if the message had not been sent. -/
theorem c8_unknown_op_error (decode : String → Option InMsg) (s : ServerState)
    (c : ClientId) (l op : String) (rest : List String)
    (isFirst : Bool) (now : Nat)
    (hdec : decode l = some (InMsg.other op))
    (hhttp : httpish l = false)
    (hsize : l.utf8ByteSize ≤ MAX_LINE_BYTES) :
    clientLoop decode s c isFirst (l :: rest) now =
      ((clientLoop decode s c false rest now).1,
       Output.toClient c (Msg.errorMsg ("unknown op: " ++ op)) ::
         (clientLoop decode s c false rest now).2) := by
  have hsz : ¬ (MAX_LINE_BYTES < l.utf8ByteSize) := not_lt.mpr hsize
  simp [clientLoop, hhttp, hsz, hdec, dispatch]

/-- A decoder for the C8 witness: every line decodes to the unrecognized
operation `"hello"`. -/
def decodeOtherHello : String → Option InMsg := fun _ => some (InMsg.other "hello")

/-- Witness for claim C8: an unknown op `"hello"` followed by a `ping` line
still gets the `ping` processed. -/
theorem c8_unknown_op_error_witness :
    clientLoop decodeOtherHello pairState 2 true ["x", "y"] 3 =
      ((clientLoop decodeOtherHello pairState 2 false ["y"] 3).1,
       Output.toClient 2 (Msg.errorMsg ("unknown op: " ++ "hello")) ::
         (clientLoop decodeOtherHello pairState 2 false ["y"] 3).2) :=
  c8_unknown_op_error decodeOtherHello pairState 2 "x" "hello" ["y"] true 3
    (by decide) (by decide) (by decide)

/-! ### Auto scan is prefix-based (claim C9) -/

def initClients : ClientId → ClientState := fun n =>
  ⟨none, none, "peer", "a" ++ toString n⟩

def initState : ServerState := ⟨[], initClients⟩

/-- Claim C9: the auto-join scan keys on the literal `"auto-"` prefix, not
on server-synthesized provenance: client `1` creates the room
`"auto-lobby"` in named mode, and client `2`'s `"auto"`/`join` request is
paired into it. -/
theorem c9_auto_scan_prefix_only :
    (joinRoom (joinRoom initState 1 "auto-lobby" .host "Alice" 1).1
        2 "auto" .join "Bob" 2).1.rooms =
      [("auto-lobby", ⟨some 1, some 2⟩)] ∧
    (joinRoom (joinRoom initState 1 "auto-lobby" .host "Alice" 1).1
        2 "auto" .join "Bob" 2).1.clients 2 =
      ⟨some "auto-lobby", some .join, "Bob", "a2"⟩ ∧
    (joinRoom (joinRoom initState 1 "auto-lobby" .host "Alice" 1).1
        2 "auto" .join "Bob" 2).2 =
      [(2, Msg.joined "auto-lobby" .join 2), (1, Msg.ready "Bob" 2),
       (2, Msg.ready "Alice" 2)] := by
  decide

/-! ### HTTP status page branch (claim C10) -/

theorem clientLoop_false_no_http (decode : String → Option InMsg)
    (c : ClientId) (now : Nat) :
    ∀ (lines : List String) (s : ServerState),
      ∀ o ∈ (clientLoop decode s c false lines now).2, o.isHttpPage = false := by
  intro lines
  induction lines with
  | nil =>
    intro s o ho
    simp [clientLoop] at ho
  | cons l rest ih =>
    intro s o ho
    by_cases hsz : MAX_LINE_BYTES < l.utf8ByteSize
    · simp [clientLoop, hsz] at ho
      simp [ho, Output.isHttpPage]
    · cases hdec : decode l with
      | none =>
        simp [clientLoop, hsz, hdec] at ho
        rcases ho with rfl | ho'
        · simp [Output.isHttpPage]
        · exact ih s o ho'
      | some m =>
        simp [clientLoop, hsz, hdec] at ho
        rcases ho with ⟨p, hp, hpo⟩ | ho'
        · rw [← hpo.2]
          simp [Output.isHttpPage]
        · exact ih _ o ho'

/-- Claim C10: a first line starting with `"GET "` or `"HTTP/"` serves the
one-shot status page computed from the registry, ends handling with the
state (registry included) exactly unchanged and no protocol message
processed; a non-HTTP first line makes the rest of the loop behave exactly
as if the branch did not exist, and past the first line the loop never
emits the status page. -/
theorem c10_http_first_line (decode : String → Option InMsg) (s : ServerState)
    (c : ClientId) (l : String) (rest : List String) (now : Nat) :
    (httpish l = true →
      clientLoop decode s c true (l :: rest) now =
        (s, [Output.httpPage (statusSnapshot s)])) ∧
    (httpish l = false →
      clientLoop decode s c true (l :: rest) now =
        clientLoop decode s c false (l :: rest) now) ∧
    (∀ o ∈ (clientLoop decode s c false (l :: rest) now).2,
      o.isHttpPage = false) := by
  refine ⟨fun h => ?_, fun h => ?_, fun o ho => ?_⟩
  · simp [clientLoop, h]
  · simp [clientLoop, h]
  · exact clientLoop_false_no_http decode c now (l :: rest) s o ho

/-- Witness for claim C10: a `"GET "` first line yields only the status
page and leaves the paired-room state untouched; the same request line
later in the stream takes the normal path. -/
theorem c10_http_first_line_witness :
    clientLoop decodeOtherHello pairState 2 true ["GET / HTTP/1.1"] 7 =
      (pairState, [Output.httpPage (statusSnapshot pairState)]) ∧
    clientLoop decodeOtherHello pairState 2 true ["x", "GET / HTTP/1.1"] 7 =
      clientLoop decodeOtherHello pairState 2 false ["x", "GET / HTTP/1.1"] 7 :=
  ⟨(c10_http_first_line decodeOtherHello pairState 2 "GET / HTTP/1.1" [] 7).1
      (by decide),
   (c10_http_first_line decodeOtherHello pairState 2 "x" ["GET / HTTP/1.1"] 7).2.1
      (by decide)⟩

/-! ### Registry invariant (claim C4) -/

/-- Every key present maps to a room with at least one occupied slot. -/
def registryOK (rs : Registry) : Prop :=
  ∀ k v, getRoom rs k = some v → (v.host ≠ none ∨ v.join ≠ none)

/-- `registryOK` away from one possibly-empty key. -/
def registryOKx (rs : Registry) (k0 : String) : Prop :=
  ∀ k v, k ≠ k0 → getRoom rs k = some v → (v.host ≠ none ∨ v.join ≠ none)

theorem registryOKx_of_OK {rs : Registry} (h : registryOK rs) (k0 : String) :
    registryOKx rs k0 := fun k v _ hg => h k v hg

theorem registryOK_setRoom {rs : Registry} {k : String} {v : RoomState}
    (h : registryOK rs) (hv : v.host ≠ none ∨ v.join ≠ none) :
    registryOK (setRoom rs k v) := by
  intro k' v' hg
  rw [getRoom_setRoom] at hg
  by_cases hk : k' = k
  · rw [if_pos hk] at hg
    cases hg
    exact hv
  · rw [if_neg hk] at hg
    exact h k' v' hg

theorem registryOK_popRoom {rs : Registry} {k : String} (h : registryOK rs) :
    registryOK (popRoom rs k) := by
  intro k' v' hg
  rw [getRoom_popRoom] at hg
  by_cases hk : k' = k
  · rw [if_pos hk] at hg; cases hg
  · rw [if_neg hk] at hg
    exact h k' v' hg

theorem registryOKx_setRoom_self {rs : Registry} {k0 : String} {v : RoomState}
    (h : registryOK rs) : registryOKx (setRoom rs k0 v) k0 := by
  intro k' v' hk hg
  rw [getRoom_setRoom, if_neg hk] at hg
  exact h k' v' hg

theorem registryOKx_setRoom {rs : Registry} {k0 k : String} {v : RoomState}
    (h : registryOKx rs k0) (hv : v.host ≠ none ∨ v.join ≠ none) :
    registryOKx (setRoom rs k v) k0 := by
  intro k' v' hk hg
  rw [getRoom_setRoom] at hg
  by_cases hkk : k' = k
  · rw [if_pos hkk] at hg; cases hg; exact hv
  · rw [if_neg hkk] at hg
    exact h k' v' hk hg

theorem registryOKx_popRoom {rs : Registry} {k0 k : String}
    (h : registryOKx rs k0) : registryOKx (popRoom rs k) k0 := by
  intro k' v' hk hg
  rw [getRoom_popRoom] at hg
  by_cases hkk : k' = k
  · rw [if_pos hkk] at hg; cases hg
  · rw [if_neg hkk] at hg
    exact h k' v' hk hg

theorem registryOK_remove {s : ServerState} (c : ClientId) (reason : String)
    (now : Nat) (h : registryOK s.rooms) :
    registryOK (removeClientLocked s c reason now).1.rooms := by
  rcases removeClientLocked_rooms_shape s c reason now with he | ⟨k, he⟩ | ⟨k, v, hv, he⟩
  · rw [he]; exact h
  · rw [he]; exact registryOK_popRoom h
  · rw [he]
    refine registryOK_setRoom h ?_
    by_cases hh : v.host = none
    · right
      intro hj
      exact hv ⟨hh, hj⟩
    · exact Or.inl hh

theorem registryOKx_remove {s : ServerState} (c : ClientId) (reason : String)
    (now : Nat) {k0 : String} (h : registryOKx s.rooms k0) :
    registryOKx (removeClientLocked s c reason now).1.rooms k0 := by
  rcases removeClientLocked_rooms_shape s c reason now with he | ⟨k, he⟩ | ⟨k, v, hv, he⟩
  · rw [he]; exact h
  · rw [he]; exact registryOKx_popRoom h
  · rw [he]
    refine registryOKx_setRoom h ?_
    by_cases hh : v.host = none
    · right
      intro hj
      exact hv ⟨hh, hj⟩
    · exact Or.inl hh

theorem attachClient_rooms_formula (s : ServerState) (c : ClientId)
    (k : String) (role : Role) (name : String) (now : Nat) :
    (attachClient s c k role name now).1.rooms =
      (match getRoom (removeClientLocked s c "switched room" now).1.rooms k with
       | some w =>
           setRoom (removeClientLocked s c "switched room" now).1.rooms k
             (match role with
              | .host => { w with host := some c }
              | .join => { w with join := some c })
       | none => (removeClientLocked s c "switched room" now).1.rooms) := by
  rcases hg : getRoom (removeClientLocked s c "switched room" now).1.rooms k with _ | w <;>
    simp only [attachClient, updClient_rooms_eq, hg, Option.getD_some]

theorem attachClient_clients_formula (s : ServerState) (c : ClientId)
    (k : String) (role : Role) (name : String) (now : Nat) :
    (attachClient s c k role name now).1.clients =
      (fun x => if x = c
        then { (removeClientLocked s c "switched room" now).1.clients c with
                 room := some k, role := some role, name := name }
        else (removeClientLocked s c "switched room" now).1.clients x) := by
  rcases hg : getRoom (removeClientLocked s c "switched room" now).1.rooms k with _ | w <;>
    simp only [attachClient, updClient_rooms_eq, hg] <;> rfl

theorem registryOK_attachClient (s : ServerState) (c : ClientId) (k : String)
    (role : Role) (name : String) (now : Nat)
    (h : registryOKx s.rooms k) :
    registryOK (attachClient s c k role name now).1.rooms := by
  have hx : registryOKx (removeClientLocked s c "switched room" now).1.rooms k :=
    registryOKx_remove c "switched room" now h
  rw [attachClient_rooms_formula]
  rcases hg : getRoom (removeClientLocked s c "switched room" now).1.rooms k with _ | w <;>
    simp only [hg]
  · intro k' v' hgg
    by_cases hk : k' = k
    · subst hk; rw [hgg] at hg; cases hg
    · exact hx k' v' hk hgg
  · intro k' v' hgg
    rw [getRoom_setRoom] at hgg
    by_cases hk : k' = k
    · rw [if_pos hk] at hgg
      cases hgg
      cases role <;> simp
    · rw [if_neg hk] at hgg
      exact hx k' v' hk hgg

theorem resolveRoom_cases (s : ServerState) (c : ClientId) (k : String)
    (role : Role) (kr : String × Registry)
    (h : resolveRoom s c k role = some kr) :
    kr.2 = s.rooms ∨ kr.2 = setRoom s.rooms kr.1 ⟨none, none⟩ := by
  unfold resolveRoom at h
  split at h
  · split at h
    · cases h
      right; rfl
    · split at h
      · exact absurd h (by simp)
      · cases h
        left; rfl
  · split at h
    · cases h
      left; rfl
    · cases h
      right; rfl

theorem registryOK_joinRoom (s : ServerState) (c : ClientId) (k : String)
    (role : Role) (name : String) (now : Nat) (h : registryOK s.rooms) :
    registryOK (joinRoom s c k role name now).1.rooms := by
  rcases hres : resolveRoom s c k role with _ | kr
  · simp only [joinRoom, hres]
    exact h
  · simp only [joinRoom, hres]
    split
    · rename_i hocc
      rcases resolveRoom_cases s c k role kr hres with hsame | hins
      · dsimp only
        rw [hsame]
        exact h
      · exfalso
        rw [hins, getRoom_setRoom_self] at hocc
        simp [occupiedByOther, slotOf] at hocc
        cases role <;> simp at hocc
    · rcases resolveRoom_cases s c k role kr hres with hsame | hins
      · refine registryOK_attachClient _ c kr.1 role name now ?_
        dsimp only
        rw [hsame]
        exact registryOKx_of_OK h kr.1
      · refine registryOK_attachClient _ c kr.1 role name now ?_
        dsimp only
        rw [hins]
        exact registryOKx_setRoom_self h

theorem forwardToPeer_state (s : ServerState) (c : ClientId) (p : FwdPayload)
    (now : Nat) : (forwardToPeer s c p now).1 = s := by
  unfold forwardToPeer
  dsimp only
  repeat' split
  all_goals rfl

/-- `currentRoom` is set iff `currentRole` is set, for every connection. -/
def clientsOK (s : ServerState) : Prop :=
  ∀ x, ((s.clients x).room).isSome = ((s.clients x).role).isSome

theorem clientsOK_remove (s : ServerState) (c : ClientId) (reason : String)
    (now : Nat) (h : clientsOK s) :
    clientsOK (removeClientLocked s c reason now).1 := by
  rcases hr : (s.clients c).room with _ | rn
  · rw [removeClientLocked_noop s c reason now (Or.inl hr)]; exact h
  rcases ho : (s.clients c).role with _ | ro
  · rw [removeClientLocked_noop s c reason now (Or.inr ho)]; exact h
  intro x
  rw [removeClientLocked_clients_formula s c reason now rn ro hr ho]
  by_cases hx : x = c
  · simp [hx]
  · simp only [hx, if_false]
    exact h x

theorem clientsOK_attach (s : ServerState) (c : ClientId) (k : String)
    (role : Role) (name : String) (now : Nat) (h : clientsOK s) :
    clientsOK (attachClient s c k role name now).1 := by
  intro x
  rw [attachClient_clients_formula]
  by_cases hx : x = c
  · simp [hx]
  · simp only [hx, if_false]
    exact clientsOK_remove s c "switched room" now h x

theorem clientsOK_joinRoom (s : ServerState) (c : ClientId) (k : String)
    (role : Role) (name : String) (now : Nat) (h : clientsOK s) :
    clientsOK (joinRoom s c k role name now).1 := by
  rcases hres : resolveRoom s c k role with _ | kr
  · simp only [joinRoom, hres]
    exact h
  · simp only [joinRoom, hres]
    split
    · exact h
    · exact clientsOK_attach _ c kr.1 role name now h

theorem clientsOK_dispatch (s : ServerState) (c : ClientId) (m : InMsg)
    (now : Nat) (h : clientsOK s) : clientsOK (dispatch s c m now).1 := by
  cases m with
  | joinMsg room role name =>
    rcases hpr : parseRole role with _ | r <;>
      simp only [dispatch, hpr]
    · exact h
    · exact clientsOK_joinRoom s c _ r _ now h
  | ping => exact h
  | pong => exact h
  | msgOp p =>
    have he := forwardToPeer_state s c p now
    simp only [dispatch, he]
    exact h
  | other op => exact h

theorem registryOK_dispatch (s : ServerState) (c : ClientId) (m : InMsg)
    (now : Nat) (h : registryOK s.rooms) :
    registryOK (dispatch s c m now).1.rooms := by
  cases m with
  | joinMsg room role name =>
    rcases hpr : parseRole role with _ | r <;>
      simp only [dispatch, hpr]
    · exact h
    · exact registryOK_joinRoom s c _ r _ now h
  | ping => exact h
  | pong => exact h
  | msgOp p =>
    have he := forwardToPeer_state s c p now
    simp only [dispatch, he]
    exact h
  | other op => exact h

theorem registryOK_reachable (s : ServerState) (h : Reachable s) :
    registryOK s.rooms := by
  induction h with
  | init f hf =>
    intro k v hg
    cases hg
  | join hs c k role name now ih => exact registryOK_joinRoom _ c k role name now ih
  | remove hs c reason now ih => exact registryOK_remove c reason now ih
  | forward hs c p now ih =>
    rename_i s'
    rw [forwardToPeer_state]
    exact ih
  | dispatchStep hs c m now ih => exact registryOK_dispatch _ c m now ih

theorem clientsOK_reachable (s : ServerState) (h : Reachable s) :
    clientsOK s := by
  induction h with
  | init f hf =>
    intro x
    rw [(hf x).1, (hf x).2]
    rfl
  | join hs c k role name now ih => exact clientsOK_joinRoom _ c k role name now ih
  | remove hs c reason now ih => exact clientsOK_remove _ c reason now ih
  | forward hs c p now ih =>
    rw [forwardToPeer_state]
    exact ih
  | dispatchStep hs c m now ih => exact clientsOK_dispatch _ c m now ih

theorem departBothOrders (s : ServerState) (k : String) (a b : ClientId)
    (r1 r2 : String) (n1 n2 : Nat)
    (hg : getRoom s.rooms k = some ⟨some a, some b⟩)
    (hab : a ≠ b)
    (hra : (s.clients a).room = some k) (hoa : (s.clients a).role = some .host)
    (hrb : (s.clients b).room = some k) (hob : (s.clients b).role = some .join) :
    getRoom (removeClientLocked (removeClientLocked s a r1 n1).1 b r2 n2).1.rooms k = none ∧
    getRoom (removeClientLocked (removeClientLocked s b r1 n1).1 a r2 n2).1.rooms k = none := by
  constructor
  · have hcs1 : clearSlot ⟨some a, some b⟩ Role.host a = (⟨none, some b⟩, some b) := by
      simp [clearSlot]
    have h1rooms : (removeClientLocked s a r1 n1).1.rooms =
        setRoom s.rooms k ⟨none, some b⟩ := by
      rw [removeClientLocked_rooms_formula s a r1 n1 k Role.host
        ⟨some a, some b⟩ hra hoa hg, hcs1]
      simp
    have h1g : getRoom (removeClientLocked s a r1 n1).1.rooms k =
        some ⟨none, some b⟩ := by
      rw [h1rooms]; exact getRoom_setRoom_self _ _ _
    have hb1 : (removeClientLocked s a r1 n1).1.clients b = s.clients b :=
      removeClientLocked_clients_ne s a r1 n1 b (Ne.symm hab)
    have hcs2 : clearSlot ⟨none, some b⟩ Role.join b = (⟨none, none⟩, none) := by
      simp [clearSlot]
    rw [removeClientLocked_rooms_formula _ b r2 n2 k Role.join ⟨none, some b⟩
      (by rw [hb1]; exact hrb) (by rw [hb1]; exact hob) h1g, hcs2]
    simp [getRoom_popRoom_self]
  · have hcs1 : clearSlot ⟨some a, some b⟩ Role.join b = (⟨some a, none⟩, some a) := by
      simp [clearSlot]
    have h1rooms : (removeClientLocked s b r1 n1).1.rooms =
        setRoom s.rooms k ⟨some a, none⟩ := by
      rw [removeClientLocked_rooms_formula s b r1 n1 k Role.join
        ⟨some a, some b⟩ hrb hob hg, hcs1]
      simp
    have h1g : getRoom (removeClientLocked s b r1 n1).1.rooms k =
        some ⟨some a, none⟩ := by
      rw [h1rooms]; exact getRoom_setRoom_self _ _ _
    have ha1 : (removeClientLocked s b r1 n1).1.clients a = s.clients a :=
      removeClientLocked_clients_ne s b r1 n1 a hab
    have hcs2 : clearSlot ⟨some a, none⟩ Role.host a = (⟨none, none⟩, none) := by
      simp [clearSlot]
    rw [removeClientLocked_rooms_formula _ a r2 n2 k Role.host ⟨some a, none⟩
      (by rw [ha1]; exact hra) (by rw [ha1]; exact hoa) h1g, hcs2]
    simp [getRoom_popRoom_self]

def demoPairState : ServerState :=
  (joinRoom (joinRoom initState 0 "r" .host "Alice" 0).1 1 "r" .join "Bob" 0).1

/-- Claim C4: in every reachable state every key present in the registry
maps to a room with at least one occupied slot, and from any reachable
state in which a room holds two distinct occupants, after both depart (in
either order) the room's key is absent from the registry. -/
theorem c4_registry_nonempty_invariant :
    (∀ s, Reachable s →
      ∀ k v, getRoom s.rooms k = some v → (v.host ≠ none ∨ v.join ≠ none)) ∧
    (∀ s k a b r1 r2 n1 n2, Reachable s →
      getRoom s.rooms k = some ⟨some a, some b⟩ → a ≠ b →
      (s.clients a).room = some k → (s.clients a).role = some .host →
      (s.clients b).room = some k → (s.clients b).role = some .join →
      getRoom (removeClientLocked (removeClientLocked s a r1 n1).1 b r2 n2).1.rooms k = none ∧
      getRoom (removeClientLocked (removeClientLocked s b r1 n1).1 a r2 n2).1.rooms k = none) :=
  ⟨fun s hs => registryOK_reachable s hs,
   fun s k a b r1 r2 n1 n2 _ hg hab hra hoa hrb hob =>
     departBothOrders s k a b r1 r2 n1 n2 hg hab hra hoa hrb hob⟩

/-- Witness for claim C4 at the reachable paired room `"r"`. -/
theorem c4_registry_nonempty_invariant_witness :
    ((some 0 : Option ClientId) ≠ none ∨ (some 1 : Option ClientId) ≠ none) ∧
    (getRoom (removeClientLocked (removeClientLocked demoPairState 0 "peer disconnected" 1).1
        1 "peer disconnected" 2).1.rooms "r" = none ∧
     getRoom (removeClientLocked (removeClientLocked demoPairState 1 "peer disconnected" 1).1
        0 "peer disconnected" 2).1.rooms "r" = none) :=
  ⟨c4_registry_nonempty_invariant.1 demoPairState
      (Reachable.join (Reachable.join (Reachable.init initClients (fun _ => ⟨rfl, rfl⟩))
        0 "r" Role.host "Alice" 0) 1 "r" Role.join "Bob" 0)
      "r" ⟨some 0, some 1⟩ (by decide),
   c4_registry_nonempty_invariant.2 demoPairState "r" 0 1 "peer disconnected" "peer disconnected" 1 2
      (Reachable.join (Reachable.join (Reachable.init initClients (fun _ => ⟨rfl, rfl⟩))
        0 "r" Role.host "Alice" 0) 1 "r" Role.join "Bob" 0)
      (by decide) (by decide) (by decide) (by decide) (by decide) (by decide)⟩

/-- Claim C6: in every reachable state, and hence after every complete
operation, a connection's `currentRoom` is set if and only if its
`currentRole` is set. -/
theorem c6_room_iff_role (s : ServerState) (h : Reachable s) :
    ∀ c, ((s.clients c).room).isSome = ((s.clients c).role).isSome :=
  clientsOK_reachable s h

/-- Witness for claim C6 at a reachable paired room. -/
theorem c6_room_iff_role_witness :
    ((demoPairState.clients 0).room).isSome = ((demoPairState.clients 0).role).isSome ∧
    ((demoPairState.clients 2).room).isSome = ((demoPairState.clients 2).role).isSome :=
  ⟨c6_room_iff_role demoPairState
     (Reachable.join (Reachable.join (Reachable.init initClients (fun _ => ⟨rfl, rfl⟩))
       0 "r" Role.host "Alice" 0) 1 "r" Role.join "Bob" 0) 0,
   c6_room_iff_role demoPairState
     (Reachable.join (Reachable.join (Reachable.init initClients (fun _ => ⟨rfl, rfl⟩))
       0 "r" Role.host "Alice" 0) 1 "r" Role.join "Bob" 0) 2⟩
